import Mathlib

/-!
Shallow embedding of `decomp/dictionary_learning.py` (the function `solve`),
the online dictionary-learning driver of the deComP repository.

Modelling conventions:
* numpy arrays become Mathlib matrices over an exact field; the real float
  family is embedded as `ℚ`, the complex family as `ℂ` (or a generic
  `Field α` with `StarRing α`, so that one definition covers both the real
  branch, where `star` is the identity, and the complex branch, where the
  code applies `xp.conj` before the products — lines 107-108);
* the external collaborators that are not part of this repository's core
  (`lasso.solve_ista`, `lasso.solve_fista`, their masked variants, and the
  minibatch sampler `minibatch_index`) are abstract function parameters,
  matching the spec's description of them as external leaves;
* the `KeyboardInterrupt` early-return (lines 132-133) is an asynchronous
  OS signal and is not modelled;
* observations are taken with one leading sample dimension (`y : [ns, C]`),
  the matrix case of the code's `[..., C]`.
-/

set_option linter.unusedVariables false

namespace DecompDL

/-- `_JITTER = 1.0e-10` (line 9 of dictionary_learning.py). -/
def jitter : ℚ := 1 / 10000000000

/-- The `lasso_method` argument: the two recognized solver choices
(lines 79, 83, 92, 96). -/
inductive LassoMethod
  | ista
  | fista
deriving DecidableEq

/-- Lines 78-101: dispatch on `lasso_method` and bind the solver output.
In the `ista` branches (lines 80, 93) the refreshed codes are bound to
`x_minibatch`; in the `fista` branches (lines 84, 97) the code binds the
solver output to the variable `x_minibatc` (note the missing `h`), which is
never read again, so the value of `x_minibatch` after the dispatch is still
the warm start `x0`. -/
def refreshedCodes {β : Type} (meth : LassoMethod) (ista fista : β → β)
    (x0 : β) : β :=
  match meth with
  | .ista => ista x0
  | .fista =>
      let x_minibatc := fista x0
      x0

section Accumulator

variable {α : Type} [Field α] [StarRing α] {b F C : ℕ}

/-- Line 111: `A = (1.0 - it_inv) * A + it_inv * xp.dot(xT, x_minibatch)`
with `it_inv = 1.0 / it` (line 110) and `xT` the (conjugate, for complex
data) transpose of the minibatch codes (lines 106-108). -/
def accumAUpdate (it : ℕ) (A : Matrix (Fin F) (Fin F) α)
    (x_mb : Matrix (Fin b) (Fin F) α) : Matrix (Fin F) (Fin F) α :=
  (1 - 1 / (it : α)) • A + (1 / (it : α)) • (x_mb.conjTranspose * x_mb)

/-- Line 113 (unmasked branch):
`B = (1.0 - it_inv) * B + it_inv * xp.dot(xT, y_minibatch)`. -/
def unmaskedBUpdate (it : ℕ) (B : Matrix (Fin F) (Fin C) α)
    (x_mb : Matrix (Fin b) (Fin F) α) (y_mb : Matrix (Fin b) (Fin C) α) :
    Matrix (Fin F) (Fin C) α :=
  (1 - 1 / (it : α)) • B + (1 / (it : α)) • (x_mb.conjTranspose * y_mb)

/-- Line 115: `mask_sum = xp.sum(mask_minibatch, axis=0)`, the per-channel
column sum of the minibatch mask. -/
def colSum (m_mb : Matrix (Fin b) (Fin C) α) : Fin C → α :=
  fun c => ∑ i, m_mb i c

/-- Line 116: `E = E + mask_sum`. -/
def maskedEUpdate (E : Fin C → α) (m_mb : Matrix (Fin b) (Fin C) α) :
    Fin C → α :=
  fun c => E c + colSum m_mb c

/-- Lines 117-118 (masked branch):
`B = B + 1.0 / E * (xp.dot(xT, y_minibatch * mask_minibatch) - mask_sum * B)`
where `E` is the exposure vector already updated by line 116 (`Eupd` here);
`1.0 / E` and `mask_sum` broadcast per channel over the rows of `B`. -/
def maskedBUpdate (Eupd : Fin C → α) (B : Matrix (Fin F) (Fin C) α)
    (x_mb : Matrix (Fin b) (Fin F) α) (y_mb : Matrix (Fin b) (Fin C) α)
    (m_mb : Matrix (Fin b) (Fin C) α) : Matrix (Fin F) (Fin C) α :=
  Matrix.of fun j c =>
    B j c + 1 / Eupd c *
      ((x_mb.conjTranspose * Matrix.of fun i c' => y_mb i c' * m_mb i c') j c
        - colSum m_mb c * B j c)

/-- Lines 106-118: one full sufficient-statistics update, branching on the
presence of a mask exactly as the code does (`if mask is None`, line 112).
Returns the updated `(A, B, E)`; in the unmasked branch `E` is untouched
(the code does not even allocate it, line 68). -/
def accumStep (it : ℕ) (A : Matrix (Fin F) (Fin F) α)
    (B : Matrix (Fin F) (Fin C) α) (E : Fin C → α)
    (x_mb : Matrix (Fin b) (Fin F) α) (y_mb : Matrix (Fin b) (Fin C) α)
    (m_mb : Option (Matrix (Fin b) (Fin C) α)) :
    Matrix (Fin F) (Fin F) α × Matrix (Fin F) (Fin C) α × (Fin C → α) :=
  match m_mb with
  | none =>
      (accumAUpdate it A x_mb, unmaskedBUpdate it B x_mb y_mb, E)
  | some m =>
      (accumAUpdate it A x_mb,
       maskedBUpdate (maskedEUpdate E m) B x_mb y_mb m,
       maskedEUpdate E m)

/-- The replayed `A` recursion (line 111) over a whole sequence of minibatch
code matrices, starting from iteration counter `it` (the loop runs the
counter 1, 2, ...; line 71).  Each minibatch may have its own row count `b`,
hence the sigma type. -/
def accumA (it : ℕ) (A : Matrix (Fin F) (Fin F) α) :
    List ((b : ℕ) × Matrix (Fin b) (Fin F) α) → Matrix (Fin F) (Fin F) α
  | [] => A
  | Xb :: rest => accumA (it + 1) (accumAUpdate it A Xb.2) rest

end Accumulator

section DictionaryUpdate

variable {F C : ℕ}

/-- Lines 120-121: `Adiag = expand_dims(diagonal(A), -1)` and
`U = (B - dot(A, D)) / (Adiag + _JITTER) + D`; `Adiag` broadcasts per atom
(row). -/
def dictUpdateU (A : Matrix (Fin F) (Fin F) ℚ) (B D : Matrix (Fin F) (Fin C) ℚ) :
    Matrix (Fin F) (Fin C) ℚ :=
  Matrix.of fun j c => (B - A * D) j c / (A j j + jitter) + D j c

/-- Line 125 (real branch): `Unorm = sum(U * U, axis=-1)`, the squared
Euclidean norm of each atom (row) of `U`. -/
def rowNormSq (U : Matrix (Fin F) (Fin C) ℚ) (j : Fin F) : ℚ :=
  ∑ c, U j c * U j c

/-- Line 127: `D_new = U / maximum(Unorm, 1.0)`; each row of `U` is divided
by the larger of its squared norm and one. -/
def normalizeRows (U : Matrix (Fin F) (Fin C) ℚ) : Matrix (Fin F) (Fin C) ℚ :=
  Matrix.of fun j c => U j c / max (rowNormSq U j) 1

/-- Lines 120-127: the complete dictionary update producing `D_new` from the
current statistics `A`, `B` and dictionary `D`. -/
def dictUpdate (A : Matrix (Fin F) (Fin F) ℚ) (B D : Matrix (Fin F) (Fin C) ℚ) :
    Matrix (Fin F) (Fin C) ℚ :=
  normalizeRows (dictUpdateU A B D)

/-- Line 128: `xp.max(xp.abs(D - D_new)) < tol`.  The maximum of the
elementwise absolute differences is below `tol` iff every entry's absolute
difference is (for the nonempty matrices the code operates on). -/
def converged (D D_new : Matrix (Fin F) (Fin C) ℚ) (tol : ℚ) : Prop :=
  ∀ j c, |D j c - D_new j c| < tol

instance (D D_new : Matrix (Fin F) (Fin C) ℚ) (tol : ℚ) :
    Decidable (converged D D_new tol) := by
  unfold converged; infer_instance

end DictionaryUpdate

section Driver

variable {ns F C b : ℕ}

/-- Line 103: `x[indexes] = x_minibatch`.  The sampled row positions are
written in order with the minibatch rows; a repeated index ends up with the
last write, as in numpy fancy assignment. -/
def writeRows (X : Fin ns → Fin F → ℚ) (idx : Fin b → Fin ns)
    (V : Matrix (Fin b) (Fin F) ℚ) : Fin ns → Fin F → ℚ :=
  (List.finRange b).foldl (fun M p => Function.update M (idx p) (V p)) X

/-- The inputs of one `solve` call that stay fixed across iterations:
the method choice, the four external lasso solvers (each mapping the
current dictionary, the minibatch observations and the warm start — plus
the minibatch mask for the masked variants — to refreshed codes; the inner
iteration count `it2` the real solvers also return is read by nothing and
is dropped here), the data `Y`, the optional mask, the tolerance, and the
sampler's index draw for every iteration (`minibatch_index`, line 73,
deterministic given the seed). -/
structure SolveParams (ns F C b : ℕ) where
  meth : LassoMethod
  solve_ista : Matrix (Fin F) (Fin C) ℚ → Matrix (Fin b) (Fin C) ℚ →
    Matrix (Fin b) (Fin F) ℚ → Matrix (Fin b) (Fin F) ℚ
  solve_fista : Matrix (Fin F) (Fin C) ℚ → Matrix (Fin b) (Fin C) ℚ →
    Matrix (Fin b) (Fin F) ℚ → Matrix (Fin b) (Fin F) ℚ
  solve_ista_mask : Matrix (Fin F) (Fin C) ℚ → Matrix (Fin b) (Fin C) ℚ →
    Matrix (Fin b) (Fin C) ℚ → Matrix (Fin b) (Fin F) ℚ →
    Matrix (Fin b) (Fin F) ℚ
  solve_fista_mask : Matrix (Fin F) (Fin C) ℚ → Matrix (Fin b) (Fin C) ℚ →
    Matrix (Fin b) (Fin C) ℚ → Matrix (Fin b) (Fin F) ℚ →
    Matrix (Fin b) (Fin F) ℚ
  Y : Matrix (Fin ns) (Fin C) ℚ
  mask : Option (Matrix (Fin ns) (Fin C) ℚ)
  tol : ℚ
  idxSeq : ℕ → Fin b → Fin ns

/-- The mutable state of the loop: dictionary `D`, code matrix `X` (stored
as its rows), and the statistics `A`, `B`, `E`.  In the code `E` is only
allocated in masked mode (lines 68-69); here it is carried always and
simply never touched on the unmasked path. -/
structure DLState (ns F C : ℕ) where
  D : Matrix (Fin F) (Fin C) ℚ
  X : Fin ns → Fin F → ℚ
  A : Matrix (Fin F) (Fin F) ℚ
  B : Matrix (Fin F) (Fin C) ℚ
  E : Fin C → ℚ

/-- Line 75: `y_minibatch = y[indexes]`. -/
def ymb (P : SolveParams ns F C b) (it : ℕ) : Matrix (Fin b) (Fin C) ℚ :=
  Matrix.of fun p => P.Y (P.idxSeq it p)

/-- Line 91: `mask_minibatch = mask[indexes]`. -/
def mmb (P : SolveParams ns F C b) (it : ℕ)
    (M : Matrix (Fin ns) (Fin C) ℚ) : Matrix (Fin b) (Fin C) ℚ :=
  Matrix.of fun p => M (P.idxSeq it p)

/-- Lines 74-101: extract the warm start `x_minibatch = x[indexes]` and run
the lasso dispatch for this iteration.  Because of the dead `x_minibatc`
binding, the `fista` branches leave the warm start in place. -/
def newCodes (P : SolveParams ns F C b) (it : ℕ) (s : DLState ns F C) :
    Matrix (Fin b) (Fin F) ℚ :=
  let x0 : Matrix (Fin b) (Fin F) ℚ := Matrix.of fun p => s.X (P.idxSeq it p)
  match P.mask with
  | none =>
      refreshedCodes P.meth (P.solve_ista s.D (ymb P it))
        (P.solve_fista s.D (ymb P it)) x0
  | some M =>
      refreshedCodes P.meth (P.solve_ista_mask s.D (ymb P it) (mmb P it M))
        (P.solve_fista_mask s.D (ymb P it) (mmb P it M)) x0

/-- Line 103: the code matrix after the write-back of this iteration's
minibatch codes. -/
def iterX (P : SolveParams ns F C b) (it : ℕ) (s : DLState ns F C) :
    Fin ns → Fin F → ℚ :=
  writeRows s.X (P.idxSeq it) (newCodes P it s)

/-- Lines 106-118: the statistics `(A, B, E)` after this iteration. -/
def iterStats (P : SolveParams ns F C b) (it : ℕ) (s : DLState ns F C) :
    Matrix (Fin F) (Fin F) ℚ × Matrix (Fin F) (Fin C) ℚ × (Fin C → ℚ) :=
  accumStep it s.A s.B s.E (newCodes P it s) (ymb P it)
    (P.mask.map (mmb P it))

/-- Lines 120-127: the candidate dictionary `D_new` of this iteration. -/
def iterDnew (P : SolveParams ns F C b) (it : ℕ) (s : DLState ns F C) :
    Matrix (Fin F) (Fin C) ℚ :=
  dictUpdate (iterStats P it s).1 (iterStats P it s).2.1 s.D

/-- Line 130 (`D = D_new`) together with the already-computed pieces: the
state entering the next iteration when convergence fails. -/
def iterNext (P : SolveParams ns F C b) (it : ℕ) (s : DLState ns F C) :
    DLState ns F C :=
  ⟨iterDnew P it s, iterX P it s, (iterStats P it s).1,
   (iterStats P it s).2.1, (iterStats P it s).2.2⟩

/-- Lines 72-130: one loop body.  On convergence (line 128) the iteration
returns `(it, D, x)` — note line 129 returns the dictionary `D` that
entered the iteration, not `D_new`, while `x` has already been updated at
line 103; otherwise the loop continues with the new state. -/
def solveStep (P : SolveParams ns F C b) (it : ℕ) (s : DLState ns F C) :
    (ℕ × Matrix (Fin F) (Fin C) ℚ × (Fin ns → Fin F → ℚ)) ⊕ DLState ns F C :=
  if converged s.D (iterDnew P it s) P.tol then
    Sum.inl (it, s.D, iterX P it s)
  else
    Sum.inr (iterNext P it s)

/-- Line 71 and line 134: the loop skeleton `for it in range(1, maxiter)`
with a fall-through `return maxiter, D, x`.  `runFrom step finish maxiter it s`
executes `step` for counters `it, it+1, ..., maxiter-1` unless some step
returns early, and applies `finish maxiter` to the final state otherwise. -/
def runFrom {St R : Type} (step : ℕ → St → R ⊕ St) (finish : ℕ → St → R)
    (maxiter it : ℕ) (s : St) : R :=
  if _h : it < maxiter then
    match step it s with
    | Sum.inl r => r
    | Sum.inr s' => runFrom step finish maxiter (it + 1) s'
  else finish maxiter s
termination_by maxiter - it
decreasing_by omega

/-- Lines 57-58 and 66-69: the initial state.  `x` is all-zero when not
supplied; `A`, `B` (and `E`) start at zero. -/
def initState (D0 : Matrix (Fin F) (Fin C) ℚ)
    (x0 : Option (Fin ns → Fin F → ℚ)) : DLState ns F C :=
  ⟨D0, (match x0 with | some x => x | none => fun _ _ => 0),
   0, 0, fun _ => 0⟩

/-- Lines 54-134: the whole of `solve` (random sampling abstracted into
`P.idxSeq`, the interrupt path not modelled). -/
def solve (P : SolveParams ns F C b) (maxiter : ℕ)
    (D0 : Matrix (Fin F) (Fin C) ℚ) (x0 : Option (Fin ns → Fin F → ℚ)) :
    ℕ × Matrix (Fin F) (Fin C) ℚ × (Fin ns → Fin F → ℚ) :=
  runFrom (solveStep P) (fun mi s => (mi, s.D, s.X)) maxiter 1
    (initState D0 x0)

end Driver

section Concrete

/-- A `1 x 1` external solver that ignores its inputs and returns the
constant code `v` — a stand-in instance of the solver contract. -/
def constSolver (v : ℚ) :
    Matrix (Fin 1) (Fin 1) ℚ → Matrix (Fin 1) (Fin 1) ℚ →
    Matrix (Fin 1) (Fin 1) ℚ → Matrix (Fin 1) (Fin 1) ℚ :=
  fun _ _ _ => Matrix.of fun _ _ => v

/-- The masked variant of `constSolver`. -/
def constSolverMask (v : ℚ) :
    Matrix (Fin 1) (Fin 1) ℚ → Matrix (Fin 1) (Fin 1) ℚ →
    Matrix (Fin 1) (Fin 1) ℚ → Matrix (Fin 1) (Fin 1) ℚ →
    Matrix (Fin 1) (Fin 1) ℚ :=
  fun _ _ _ _ => Matrix.of fun _ _ => v

/-- Concrete `solve` inputs with one sample, one atom, one channel and
minibatch size one: `fista`, a solver that refreshes every code to `1`,
`Y = 0`, no mask, `tol = 1`. -/
def P1 : SolveParams 1 1 1 1 where
  meth := .fista
  solve_ista := constSolver 1
  solve_fista := constSolver 1
  solve_ista_mask := constSolverMask 1
  solve_fista_mask := constSolverMask 1
  Y := 0
  mask := none
  tol := 1
  idxSeq := fun _ _ => 0

/-- Initial state for the `P1` run: `D = 0` and no caller-supplied codes. -/
def s1 : DLState 1 1 1 := initState 0 none

/-- The same inputs as `P1` but with the `ista` method. -/
def P2 : SolveParams 1 1 1 1 := { P1 with meth := .ista }

/-- A `1 x 1` initial dictionary whose single atom has squared norm `1`. -/
def D2 : Matrix (Fin 1) (Fin 1) ℚ := Matrix.of fun _ _ => 1

/-- Initial state for the `P2` run. -/
def s2 : DLState 1 1 1 := initState D2 none

/-- A `1 x 1` initial dictionary whose single atom has squared norm `4`. -/
def D4 : Matrix (Fin 1) (Fin 1) ℚ := Matrix.of fun _ _ => 2

/-- The `P2` inputs with tolerance `0`, so the convergence test can never
succeed. -/
def P7 : SolveParams 1 1 1 1 := { P2 with tol := 0 }

/-- An all-zero `1 x 1` mask: the single channel is never observed. -/
def M8 : Matrix (Fin 1) (Fin 1) ℚ := 0

/-- The `P2` inputs run in masked mode with the all-zero mask `M8`. -/
def P8 : SolveParams 1 1 1 1 := { P2 with mask := some M8 }

/-- Initial state for the `P8` run (in particular `E = 0`, line 69). -/
def s8 : DLState 1 1 1 := initState 0 none

/-- Inputs with two samples and minibatch size one whose sampler always
draws sample `0`. -/
def P9 : SolveParams 2 1 1 1 where
  meth := .ista
  solve_ista := fun _ _ x0 => x0
  solve_fista := fun _ _ x0 => x0
  solve_ista_mask := fun _ _ _ x0 => x0
  solve_fista_mask := fun _ _ _ x0 => x0
  Y := 0
  mask := none
  tol := 1
  idxSeq := fun _ _ => 0

/-- A `1 x 1` statistic `B` whose single entry is `2e-10`; with `A = 0` and
`D = 0` it drives the dictionary update to an intermediate atom `U = (2)`
of squared norm `4`. -/
def B3 : Matrix (Fin 1) (Fin 1) ℚ := Matrix.of fun _ _ => 2 / 10000000000

/-- A state for the `P9` run whose two code rows differ. -/
def s9 : DLState 2 1 1 where
  D := 0
  X := fun i _ => ((i : ℕ) : ℚ)
  A := 0
  B := 0
  E := fun _ => 0

end Concrete

/-! ## Helper lemmas -/

theorem foldl_update_apply_of_not_sampled {ns F b : ℕ} (idx : Fin b → Fin ns)
    (V : Matrix (Fin b) (Fin F) ℚ) (i : Fin ns) (h : ∀ p, idx p ≠ i) :
    ∀ (l : List (Fin b)) (X : Fin ns → Fin F → ℚ),
      (l.foldl (fun M p => Function.update M (idx p) (V p)) X) i = X i := by
  intro l
  induction l with
  | nil => intro X; rfl
  | cons hd tl ih =>
      intro X
      simp only [List.foldl_cons]
      rw [ih]
      exact Function.update_noteq (Ne.symm (h hd)) (V hd) X

theorem writeRows_apply_of_not_sampled {ns F b : ℕ} (X : Fin ns → Fin F → ℚ)
    (idx : Fin b → Fin ns) (V : Matrix (Fin b) (Fin F) ℚ) (i : Fin ns)
    (h : ∀ p, idx p ≠ i) : writeRows X idx V i = X i :=
  foldl_update_apply_of_not_sampled idx V i h (List.finRange b) X

/-! ## Claims -/

/-- Claim C9: at every iteration, the entries of `X` at sample indices not
drawn into that iteration's minibatch are left unchanged; only the rows
selected by the sampled index set are written (lines 74, 103). -/
theorem codes_outside_minibatch_unchanged {ns F C b : ℕ}
    (P : SolveParams ns F C b) (it : ℕ) (s : DLState ns F C) (i : Fin ns)
    (h : ∀ p, P.idxSeq it p ≠ i) : iterX P it s i = s.X i :=
  writeRows_apply_of_not_sampled s.X (P.idxSeq it) (newCodes P it s) i h

/-- Witness for C9: with the sampler of `P9` (which always draws sample 0),
sample 1's code row is untouched by the iteration. -/
theorem codes_outside_minibatch_unchanged_witness :
    (∀ p : Fin 1, P9.idxSeq 1 p ≠ (1 : Fin 2)) ∧ iterX P9 1 s9 1 = s9.X 1 :=
  ⟨by decide, codes_outside_minibatch_unchanged P9 1 s9 1 (by decide)⟩

/-- Claim C5: in masked mode the accumulator first adds the per-channel
column sum of the minibatch mask to `E`, then updates `B` by the recursion
`B + (1/E) * (Xbᴴ (Yb ⊙ Mb) - mask_sum ⊙ B)` with the updated `E` and the
conjugate applied to the codes, while `A` follows the same `(1 - 1/t)`,
`1/t` recursion as in the unmasked case (lines 106-118). -/
theorem masked_accumulator_recursion {α : Type} [Field α] [StarRing α]
    {b F C : ℕ} (it : ℕ) (A : Matrix (Fin F) (Fin F) α)
    (B : Matrix (Fin F) (Fin C) α) (E : Fin C → α)
    (x_mb : Matrix (Fin b) (Fin F) α) (y_mb m_mb : Matrix (Fin b) (Fin C) α) :
    accumStep it A B E x_mb y_mb (some m_mb) =
      ((1 - 1 / (it : α)) • A +
         (1 / (it : α)) • Matrix.of (fun j k => ∑ i, star (x_mb i j) * x_mb i k),
       Matrix.of (fun j c => B j c + 1 / (E c + ∑ i, m_mb i c) *
         ((∑ i, star (x_mb i j) * (y_mb i c * m_mb i c)) -
           (∑ i, m_mb i c) * B j c)),
       fun c => E c + ∑ i, m_mb i c) := by
  simp only [accumStep, Prod.mk.injEq]
  refine ⟨?_, ?_, ?_⟩
  · unfold accumAUpdate
    congr 1
  · ext j c
    simp [maskedBUpdate, maskedEUpdate, colSum, Matrix.mul_apply,
      Matrix.conjTranspose_apply]
  · funext c
    simp [maskedEUpdate, colSum]

/-- Claim C8 (amended): the masked `B` recursion is not guarded — the same
dividing formula is applied to every channel; under the embedding's total
division (where `1/0 = 0`) a channel whose updated exposure is zero simply
keeps its `B` entries, while the real implementation performs the
floating-point division by zero. -/
theorem masked_zero_exposure_unguarded {α : Type} [Field α] [StarRing α]
    {b F C : ℕ} (B : Matrix (Fin F) (Fin C) α)
    (E : Fin C → α) (x_mb : Matrix (Fin b) (Fin F) α)
    (y_mb m_mb : Matrix (Fin b) (Fin C) α) (c : Fin C)
    (h : maskedEUpdate E m_mb c = 0) (j : Fin F) :
    maskedBUpdate (maskedEUpdate E m_mb) B x_mb y_mb m_mb j c = B j c := by
  simp [maskedBUpdate, h]

/-- Witness for the amended C8 at an all-zero `1 x 1` mask and exposure. -/
theorem masked_zero_exposure_unguarded_witness :
    maskedEUpdate (fun _ : Fin 1 => (0 : ℚ)) M8 0 = 0 ∧
    maskedBUpdate (maskedEUpdate (fun _ : Fin 1 => (0 : ℚ)) M8)
      (0 : Matrix (Fin 1) (Fin 1) ℚ) (0 : Matrix (Fin 1) (Fin 1) ℚ)
      (0 : Matrix (Fin 1) (Fin 1) ℚ) M8 0 0 =
      (0 : Matrix (Fin 1) (Fin 1) ℚ) 0 0 :=
  ⟨by simp [maskedEUpdate, colSum, M8],
   masked_zero_exposure_unguarded (0 : Matrix (Fin 1) (Fin 1) ℚ)
     (fun _ : Fin 1 => (0 : ℚ)) (0 : Matrix (Fin 1) (Fin 1) ℚ)
     (0 : Matrix (Fin 1) (Fin 1) ℚ) M8
     0 (by simp [maskedEUpdate, colSum, M8]) 0⟩

/-- Counterexample for C8: in the first masked iteration of the `P8` run
(all-zero mask) the exposure that line 117 divides by is `0` for channel 0,
and the `B` statistic is nevertheless produced by the dividing recursion —
no channel is skipped. -/
theorem masked_zero_exposure_cex :
    (iterStats P8 1 s8).2.2 0 = 0 ∧
    (iterStats P8 1 s8).2.1 =
      maskedBUpdate ((iterStats P8 1 s8).2.2) s8.B (newCodes P8 1 s8)
        (ymb P8 1) (mmb P8 1 M8) := by
  constructor
  · simp [iterStats, P8, P2, P1, accumStep, maskedEUpdate, colSum, mmb, M8,
      s8, initState]
  · rfl

theorem accumA_shift {F : ℕ} :
    ∀ (l : List ((b : ℕ) × Matrix (Fin b) (Fin F) ℚ)) (t : ℕ), 1 ≤ t →
      ∀ A : Matrix (Fin F) (Fin F) ℚ,
      accumA (t + 1) A l = ((t : ℚ) + l.length)⁻¹ •
        ((t : ℚ) • A +
          (l.map (fun Xb => Xb.2.conjTranspose * Xb.2)).sum) := by
  intro l
  induction l with
  | nil =>
      intro t ht A
      have ht0 : ((t : ℚ)) ≠ 0 := Nat.cast_ne_zero.mpr (by omega)
      simp [accumA, smul_smul, inv_mul_cancel₀ ht0]
  | cons Xb l ih =>
      intro t ht A
      have ht1 : ((t : ℚ)) + 1 ≠ 0 := by positivity
      have key : ((t : ℚ) + 1) • accumAUpdate (t + 1) A Xb.2 =
          (t : ℚ) • A + Xb.2.conjTranspose * Xb.2 := by
        unfold accumAUpdate
        rw [smul_add, smul_smul, smul_smul]
        push_cast
        rw [show ((t : ℚ) + 1) * (1 - 1 / ((t : ℚ) + 1)) = (t : ℚ) by
              field_simp,
            show ((t : ℚ) + 1) * (1 / ((t : ℚ) + 1)) = 1 by field_simp,
            one_smul]
      show accumA (t + 1 + 1) (accumAUpdate (t + 1) A Xb.2) l = _
      rw [ih (t + 1) (by omega)]
      simp only [List.length_cons, List.map_cons, List.sum_cons]
      push_cast
      rw [key]
      simp only [← add_assoc]
      rw [show ((t : ℚ) + 1 + (l.length : ℚ)) =
          ((t : ℚ) + (l.length : ℚ) + 1) from by ring]

/-- Claim C6: in the unmasked case, replaying the accumulator's `A`
recursion with weight `1/t` over any fixed sequence of minibatch codes
yields exactly the uniform `1/t`-weighted average of the per-minibatch
contributions `Xbᴴ Xb`, independent of the (possibly varying) minibatch
sizes (lines 106-113). -/
theorem unmasked_A_is_uniform_average {F : ℕ}
    (l : List ((b : ℕ) × Matrix (Fin b) (Fin F) ℚ)) :
    accumA 1 0 l =
      (1 / (l.length : ℚ)) •
        (l.map (fun Xb => Xb.2.conjTranspose * Xb.2)).sum := by
  cases l with
  | nil => simp [accumA]
  | cons Xb l =>
      have h1 : accumAUpdate 1 (0 : Matrix (Fin F) (Fin F) ℚ) Xb.2 =
          Xb.2.conjTranspose * Xb.2 := by
        unfold accumAUpdate
        norm_num
      show accumA (1 + 1) (accumAUpdate 1 0 Xb.2) l = _
      rw [accumA_shift l 1 le_rfl, h1]
      simp only [List.length_cons, List.map_cons, List.sum_cons]
      push_cast
      rw [one_smul, one_div]
      congr 1
      rw [add_comm]

theorem accumA_isHermitian_aux {α : Type} [Field α] [StarRing α] {F : ℕ} :
    ∀ (l : List ((b : ℕ) × Matrix (Fin b) (Fin F) α)) (it : ℕ)
      (A : Matrix (Fin F) (Fin F) α),
      A.IsHermitian → (accumA it A l).IsHermitian := by
  intro l
  induction l with
  | nil => intro it A hA; exact hA
  | cons Xb l ih =>
      intro it A hA
      refine ih (it + 1) _ ?_
      have hstar : star (1 - 1 / (it : α)) = 1 - 1 / (it : α) := by
        simp
      have hstar2 : star (1 / (it : α)) = 1 / (it : α) := by
        simp
      unfold accumAUpdate Matrix.IsHermitian
      rw [Matrix.conjTranspose_add, Matrix.conjTranspose_smul,
        Matrix.conjTranspose_smul, hstar, hstar2, hA.eq,
        (Matrix.isHermitian_transpose_mul_self Xb.2).eq]

/-- Claim C10: the statistic `A`, initialized to zero (line 66) and updated
by `A ← (1 - 1/t)·A + (1/t)·Xbᴴ·Xb` (lines 106-111), is Hermitian after
every update; in particular its diagonal — the per-atom normalizer of the
dictionary update (line 120) — is real for complex data. -/
theorem A_statistic_hermitian {F : ℕ}
    (l : List ((b : ℕ) × Matrix (Fin b) (Fin F) ℂ)) :
    (accumA 1 (0 : Matrix (Fin F) (Fin F) ℂ) l).IsHermitian ∧
    ∀ i, (accumA 1 (0 : Matrix (Fin F) (Fin F) ℂ) l i i).im = 0 := by
  have h := accumA_isHermitian_aux l 1 0 Matrix.isHermitian_zero
  refine ⟨h, fun i => ?_⟩
  have hii := congrFun (congrFun h.eq i) i
  rw [Matrix.conjTranspose_apply] at hii
  rw [Complex.star_def] at hii
  exact Complex.conj_eq_iff_im.mp hii

theorem rowNormSq_nonneg {F C : ℕ} (U : Matrix (Fin F) (Fin C) ℚ) (j : Fin F) :
    0 ≤ rowNormSq U j :=
  Finset.sum_nonneg fun c _ => mul_self_nonneg _

theorem rowNormSq_normalizeRows {F C : ℕ} (U : Matrix (Fin F) (Fin C) ℚ)
    (j : Fin F) :
    rowNormSq (normalizeRows U) j =
      rowNormSq U j / (max (rowNormSq U j) 1) ^ 2 := by
  unfold normalizeRows rowNormSq
  simp only [Matrix.of_apply]
  simp_rw [div_mul_div_comm]
  rw [← Finset.sum_div, pow_two]

/-- Claim C3 (amended): in the dictionary update every atom of `U` whose
squared norm `s` exceeds 1 is divided by `s`, so the corresponding atom of
`D_new` has squared norm `1/s` — inside the unit ball but (for `s ≠ 1`)
not exactly unit norm; every atom already inside the unit ball is left
unscaled (lines 120-127). -/
theorem dict_update_projection_amended {F C : ℕ}
    (A : Matrix (Fin F) (Fin F) ℚ) (B D : Matrix (Fin F) (Fin C) ℚ)
    (j : Fin F) :
    (rowNormSq (dictUpdateU A B D) j ≤ 1 →
      ∀ c, dictUpdate A B D j c = dictUpdateU A B D j c) ∧
    (1 < rowNormSq (dictUpdateU A B D) j →
      (∀ c, dictUpdate A B D j c =
        dictUpdateU A B D j c / rowNormSq (dictUpdateU A B D) j) ∧
      rowNormSq (dictUpdate A B D) j =
        1 / rowNormSq (dictUpdateU A B D) j) := by
  constructor
  · intro hle c
    unfold dictUpdate normalizeRows
    simp only [Matrix.of_apply]
    rw [max_eq_right hle, div_one]
  · intro hgt
    have hmax : max (rowNormSq (dictUpdateU A B D) j) 1 =
        rowNormSq (dictUpdateU A B D) j := max_eq_left (le_of_lt hgt)
    have hs0 : rowNormSq (dictUpdateU A B D) j ≠ 0 :=
      ne_of_gt (lt_trans zero_lt_one hgt)
    constructor
    · intro c
      unfold dictUpdate normalizeRows
      simp only [Matrix.of_apply]
      rw [hmax]
    · unfold dictUpdate
      rw [rowNormSq_normalizeRows, hmax, pow_two, div_mul_eq_div_div,
        div_self hs0]

/-- Witness for the amended C3: the atom `U = (2)` (squared norm 4)
produced by `dictUpdateU 0 B3 0` is rescaled to squared norm `1/4`. -/
theorem dict_update_projection_amended_witness :
    1 < rowNormSq (dictUpdateU (0 : Matrix (Fin 1) (Fin 1) ℚ) B3 0) 0 ∧
    rowNormSq (dictUpdate (0 : Matrix (Fin 1) (Fin 1) ℚ) B3 0) 0 =
      1 / rowNormSq (dictUpdateU (0 : Matrix (Fin 1) (Fin 1) ℚ) B3 0) 0 :=
  ⟨by
    norm_num [dictUpdateU, rowNormSq, B3, jitter, Matrix.mul_apply,
      Fin.sum_univ_one],
   (dict_update_projection_amended (0 : Matrix (Fin 1) (Fin 1) ℚ) B3 0 0).2
     (by
       norm_num [dictUpdateU, rowNormSq, B3, jitter, Matrix.mul_apply,
         Fin.sum_univ_one]) |>.2⟩

theorem dictUpdateU_B3_eval :
    dictUpdateU (0 : Matrix (Fin 1) (Fin 1) ℚ) B3 0 =
      Matrix.of fun _ _ => 2 := by
  ext i c
  norm_num [dictUpdateU, B3, jitter, Matrix.mul_apply, Fin.sum_univ_one]

/-- Counterexample for C3: with `A = 0`, `B = B3`, `D = 0` the single atom
of `U` has squared norm `4 > 1`, yet the corresponding atom of `D_new` has
squared norm `1/4`, not the exactly-unit norm the claim asserts. -/
theorem dict_update_projection_cex :
    1 < rowNormSq (dictUpdateU (0 : Matrix (Fin 1) (Fin 1) ℚ) B3 0) 0 ∧
    rowNormSq (dictUpdate (0 : Matrix (Fin 1) (Fin 1) ℚ) B3 0) 0 ≠ 1 := by
  have h4 : rowNormSq ((Matrix.of fun _ _ => (2 : ℚ)) :
      Matrix (Fin 1) (Fin 1) ℚ) 0 = 4 := by
    norm_num [rowNormSq, Fin.sum_univ_one]
  constructor
  · rw [dictUpdateU_B3_eval, h4]
    norm_num
  · unfold dictUpdate
    rw [rowNormSq_normalizeRows, dictUpdateU_B3_eval, h4,
      max_eq_left (by norm_num : (1 : ℚ) ≤ 4)]
    norm_num

/-- Claim C4 (amended): every atom of every candidate dictionary `D_new`
produced by the dictionary update has squared norm at most 1 — exactly, in
exact arithmetic.  (The dictionary `solve` returns can still violate the
bound when it is the caller-supplied initial `D`, returned before any
update is accepted; see the counterexample.) -/
theorem dict_update_atoms_in_unit_ball {F C : ℕ}
    (A : Matrix (Fin F) (Fin F) ℚ) (B D : Matrix (Fin F) (Fin C) ℚ)
    (j : Fin F) : rowNormSq (dictUpdate A B D) j ≤ 1 := by
  unfold dictUpdate
  rw [rowNormSq_normalizeRows]
  have hm1 : (1 : ℚ) ≤ max (rowNormSq (dictUpdateU A B D) j) 1 :=
    le_max_right _ _
  have hsm : rowNormSq (dictUpdateU A B D) j ≤
      max (rowNormSq (dictUpdateU A B D) j) 1 := le_max_left _ _
  rw [div_le_one (by positivity)]
  calc rowNormSq (dictUpdateU A B D) j
      ≤ max (rowNormSq (dictUpdateU A B D) j) 1 := hsm
    _ ≤ (max (rowNormSq (dictUpdateU A B D) j) 1) ^ 2 :=
        le_self_pow₀ hm1 (by norm_num)

/-- Counterexample for C4: with `maxiter = 1` the loop body never runs
(`range(1, 1)` is empty) and `solve` returns the caller-supplied
dictionary unchanged — here an atom of squared norm `4 > 1`. -/
theorem returned_dict_norm_cex :
    (solve P2 1 D4 none).2.1 = D4 ∧ 1 < rowNormSq D4 0 := by
  constructor
  · unfold solve
    rw [runFrom]
    rw [dif_neg (by omega : ¬ (1 : ℕ) < 1)]
    rfl
  · norm_num [rowNormSq, D4, Fin.sum_univ_one]

theorem iterStats_P2_A : (iterStats P2 1 s2).1 = Matrix.of fun _ _ => 1 := by
  ext i k
  norm_num [iterStats, accumStep, accumAUpdate, newCodes, refreshedCodes,
    constSolver, ymb, P2, P1, s2, initState, Matrix.mul_apply,
    Matrix.conjTranspose_apply, Fin.sum_univ_one]

theorem iterStats_P2_B : (iterStats P2 1 s2).2.1 = 0 := by
  ext i c
  norm_num [iterStats, accumStep, unmaskedBUpdate, newCodes, refreshedCodes,
    constSolver, ymb, P2, P1, s2, initState, Matrix.mul_apply,
    Matrix.conjTranspose_apply, Fin.sum_univ_one]

theorem dictUpdateU_P2_eval :
    dictUpdateU (Matrix.of fun _ _ => (1 : ℚ)) 0 D2 =
      Matrix.of fun _ _ => 1 / 10000000001 := by
  ext i c
  norm_num [dictUpdateU, D2, jitter, Matrix.mul_apply, Fin.sum_univ_one]

theorem iterDnew_P2_entry : iterDnew P2 1 s2 0 0 = 1 / 10000000001 := by
  unfold iterDnew
  rw [iterStats_P2_A, iterStats_P2_B]
  show dictUpdate (Matrix.of fun _ _ => (1 : ℚ)) 0 D2 0 0 = _
  unfold dictUpdate
  rw [dictUpdateU_P2_eval]
  unfold normalizeRows
  have hr : rowNormSq ((Matrix.of fun _ _ => (1 : ℚ) / 10000000001) :
      Matrix (Fin 1) (Fin 1) ℚ) 0 = 1 / 10000000001 * (1 / 10000000001) := by
    norm_num [rowNormSq, Fin.sum_univ_one]
  simp only [Matrix.of_apply]
  rw [hr, max_eq_right (by norm_num)]
  norm_num

theorem s2_first_iteration_converges :
    converged s2.D (iterDnew P2 1 s2) P2.tol := by
  intro j c
  have hj : j = 0 := Subsingleton.elim j 0
  have hc : c = 0 := Subsingleton.elim c 0
  subst hj; subst hc
  rw [iterDnew_P2_entry]
  show |D2 0 0 - 1 / 10000000001| < (1 : ℚ)
  norm_num [D2, abs_lt]

/-- Claim C2 (amended): when the convergence test of line 128 succeeds, the
iteration returns immediately with the dictionary `D` that entered the
iteration — the previous iterate — together with the updated `X` and the
counter `it`; the newly computed candidate `D_new` is discarded
(line 129). -/
theorem converged_returns_previous_dict {ns F C b : ℕ}
    (P : SolveParams ns F C b) (it : ℕ) (s : DLState ns F C)
    (h : converged s.D (iterDnew P it s) P.tol) :
    solveStep P it s = Sum.inl (it, s.D, iterX P it s) := by
  unfold solveStep
  rw [if_pos h]

/-- Witness for the amended C2: the first `P2` iteration converges and the
step returns `(1, D, X)` with the entering dictionary. -/
theorem converged_returns_previous_dict_witness :
    converged s2.D (iterDnew P2 1 s2) P2.tol ∧
    solveStep P2 1 s2 = Sum.inl (1, s2.D, iterX P2 1 s2) :=
  ⟨s2_first_iteration_converges,
   converged_returns_previous_dict P2 1 s2 s2_first_iteration_converges⟩

/-- Counterexample for C2: in the `P2` run the first iteration's
convergence test succeeds with `D_new ≠ D`, yet `solve` returns the
previous iterate `D2`, not the newly computed candidate `D_new`. -/
theorem converged_returns_previous_dict_cex :
    (solve P2 2 D2 none).2.1 = D2 ∧ D2 ≠ iterDnew P2 1 s2 := by
  constructor
  · have hstep : solveStep P2 1 (initState D2 none) =
        Sum.inl (1, s2.D, iterX P2 1 s2) := by
      show solveStep P2 1 s2 = _
      unfold solveStep
      rw [if_pos s2_first_iteration_converges]
    unfold solve
    rw [runFrom, dif_pos (by omega : (1 : ℕ) < 2), hstep]
    rfl
  · intro hEq
    have h00 := congrFun (congrFun hEq 0) 0
    rw [iterDnew_P2_entry] at h00
    norm_num [D2] at h00

theorem runFrom_no_stop {St R : Type} (step : ℕ → St → R ⊕ St)
    (f : ℕ → St → St) (finish : ℕ → St → R)
    (h : ∀ it s, step it s = Sum.inr (f it s)) (maxiter : ℕ) :
    ∀ (k it : ℕ), maxiter - it = k → ∀ s : St,
      runFrom step finish maxiter it s =
        finish maxiter ((List.range' it k).foldl (fun s i => f i s) s) := by
  intro k
  induction k with
  | zero =>
      intro it hk s
      rw [runFrom, dif_neg (by omega)]
      rfl
  | succ n ih =>
      intro it hk s
      rw [runFrom, dif_pos (by omega), h it s]
      show runFrom step finish maxiter (it + 1) (f it s) = _
      rw [ih (it + 1) (by omega) (f it s), List.range'_succ]
      rfl

/-- Claim C7: the outer loop runs the counter `it` from 1 to `maxiter - 1`
inclusive (line 71); when no iteration's convergence test succeeds, `solve`
falls through and returns `(maxiter, D, X)` (line 134), where `(D, X)` is
the state after folding the loop body over exactly the counters
`1, ..., maxiter - 1` — so the reported count `maxiter` is never itself
executed as an iteration. -/
theorem loop_bound_and_fallthrough {ns F C b : ℕ} (P : SolveParams ns F C b)
    (h : ∀ it s, ¬ converged s.D (iterDnew P it s) P.tol)
    (maxiter : ℕ) (D0 : Matrix (Fin F) (Fin C) ℚ)
    (x0 : Option (Fin ns → Fin F → ℚ)) :
    solve P maxiter D0 x0 =
      (maxiter,
       ((List.range' 1 (maxiter - 1)).foldl (fun s i => iterNext P i s)
          (initState D0 x0)).D,
       ((List.range' 1 (maxiter - 1)).foldl (fun s i => iterNext P i s)
          (initState D0 x0)).X) := by
  have hstep : ∀ it s, solveStep P it s = Sum.inr (iterNext P it s) := by
    intro it s
    unfold solveStep
    rw [if_neg (h it s)]
  unfold solve
  rw [runFrom_no_stop (solveStep P) (iterNext P) _ hstep maxiter
    (maxiter - 1) 1 rfl (initState D0 x0)]

/-- Witness for C7: with tolerance `0` no iteration can converge, and the
`maxiter = 3` run returns counter `3` after executing iterations 1 and 2. -/
theorem loop_bound_and_fallthrough_witness :
    (∀ (it : ℕ) (s : DLState 1 1 1),
      ¬ converged s.D (iterDnew P7 it s) P7.tol) ∧
    solve P7 3 D2 none =
      (3,
       ((List.range' 1 2).foldl (fun s i => iterNext P7 i s)
          (initState D2 none)).D,
       ((List.range' 1 2).foldl (fun s i => iterNext P7 i s)
          (initState D2 none)).X) := by
  have hnc : ∀ (it : ℕ) (s : DLState 1 1 1),
      ¬ converged s.D (iterDnew P7 it s) P7.tol := by
    intro it s hcv
    have h00 := hcv 0 0
    have htol : P7.tol = 0 := rfl
    rw [htol] at h00
    exact absurd h00 (not_lt.mpr (abs_nonneg _))
  exact ⟨hnc, loop_bound_and_fallthrough P7 hnc 3 D2 none⟩

/-- Claim C1 (code bug): with `lasso_method = "fista"` the refreshed codes
are bound to the dead variable `x_minibatc` (line 84), so the write-back at
line 103 stores the warm-start codes: after the `P1` iteration the code of
the sampled sample is still its warm start `0`, although the solver
returned `1`. -/
theorem fista_writeback_lost :
    iterX P1 1 s1 0 0 = 0 ∧
    P1.solve_fista s1.D (ymb P1 1)
      (Matrix.of fun p => s1.X (P1.idxSeq 1 p)) 0 0 = 1 := by
  constructor
  · rfl
  · rfl

end DecompDL
